import Mathlib

/-!
Shallow embedding, in Lean 4, of the metrics-reconciliation and
regression-classification core of the `hiwave` repository:

* `scripts/collect_metrics.py` — per-platform report extraction
  (swarm / pixel-diff / baseline-estimate), precedence, performance grading,
  overall aggregation and the bounded daily history;
* `test-infrastructure/scripts/regression-check.py` — per-metric
  regression classification against a stored baseline.

Python numbers are modelled by exact rationals (`ℚ`), JSON integers by `ℤ`,
Python `None`/missing-key by `Option`, and JSON dictionaries by association
lists in insertion order (lookups take the first matching key, and a
key-overwrite rewrites the pair in place, as a Python dict does).
-/

namespace HiWave

/-- Python `round` to an integer: round-half-to-even on exact rationals. -/
def pyRoundInt (x : ℚ) : ℤ :=
  let f := ⌊x⌋
  let frac := x - (f : ℚ)
  if frac < 1/2 then f
  else if 1/2 < frac then f + 1
  else if f % 2 = 0 then f else f + 1

/-- Python `round(x, nd)` on exact rationals. -/
def pyRound (x : ℚ) (nd : ℕ) : ℚ :=
  (pyRoundInt (x * 10 ^ nd) : ℚ) / 10 ^ nd

/-- Python `d.get(k)` on an association list: first value stored at key `k`. -/
def dget {α : Type} : List (String × α) → String → Option α
  | [], _ => none
  | p :: t, k => if p.1 = k then some p.2 else dget t k

/-- Python `k in d` on an association list. -/
def dhas {α : Type} (l : List (String × α)) (k : String) : Bool :=
  l.any (fun p => p.1 = k)

/-- Python dict assignment `d[k] = v` on an association list: overwrite the
value of an existing key in place, else append the new pair at the end. -/
def dictSet {α : Type} (l : List (String × α)) (k : String) (v : α) :
    List (String × α) :=
  if dhas l k then l.map (fun p => if p.1 = k then (k, v) else p)
  else l ++ [(k, v)]

/-! ## regression-check.py : RegressionDetector -/

/-- Classification outcome of `RegressionDetector.compare_metric`. -/
inductive Classification
  | regression
  | improvement
  | neutral
deriving DecidableEq, Repr

/-- The `RegressionDetector.THRESHOLDS` class dict (percentage points). -/
def THRESHOLDS : List (String × ℚ) :=
  [("total_time_ms", 5), ("parse_time_ms", 10), ("layout_time_ms", 10),
   ("paint_time_ms", 10), ("memory_mb", 15)]

/-- Embeds `RegressionDetector.compare_metric`: classify a single metric delta.
The `renderer` argument is accepted and ignored, as in the source. -/
def compare_metric (renderer : String) (metric_name : String)
    (current_value baseline_value : ℚ) : Classification × ℚ :=
  if baseline_value = 0 then (.neutral, 0)
  else
    let percent_change := (current_value - baseline_value) / baseline_value * 100
    let threshold := (dget THRESHOLDS metric_name).getD 5
    if percent_change > threshold then (.regression, percent_change)
    else if percent_change < -threshold then (.improvement, percent_change)
    else (.neutral, percent_change)

/-- One entry of a renderer's stats: `{metric_type: {"mean": float}}`. -/
structure MetricStats where
  mean : ℚ
deriving DecidableEq, Repr

/-- One of the two JSON documents fed to the regression checker.
`renderers = none` models a document without the `renderers` key. -/
structure PerfDoc where
  git_commit : Option String
  timestamp : Option String
  renderers : Option (List (String × List (String × MetricStats)))
deriving Repr

/-- A classified delta, as built in `RegressionDetector.analyze`. -/
structure RegRecord where
  renderer : String
  metric : String
  baseline_value : ℚ
  current_value : ℚ
  percent_change : ℚ
deriving DecidableEq, Repr

/-- The dict returned by `RegressionDetector.analyze`; `error = none` models
the absence of the `'error'` key. -/
structure AnalysisResult where
  regressions : List RegRecord
  improvements : List RegRecord
  baseline_commit : String
  baseline_timestamp : String
  error : Option String
deriving DecidableEq, Repr

/-- The fixed metric-type list iterated inside `analyze`. -/
def METRIC_TYPES : List String :=
  ["parse_time", "layout_time", "paint_time", "total_time", "memory"]

/-- Metric-name mapping inside `analyze`. The source computes
`metric_type.replace('_time', '_time_ms') if 'time' in metric_type else
metric_type` and then overwrites the result with `'memory_mb'` when
`metric_type == 'memory'`; since `replace` is the identity on strings not
containing `'_time'`, the guarded conditional collapses to a plain replace. -/
def metricName (metric_type : String) : String :=
  if metric_type = "memory" then "memory_mb"
  else metric_type.replace "_time" "_time_ms"

/-- Body of the per-renderer, per-metric-type loop of `analyze`, folding the
`(regressions, improvements)` accumulator pair. -/
def analyzeMetric (renderer : String)
    (current_stats baseline_stats : List (String × MetricStats))
    (acc : List RegRecord × List RegRecord) (metric_type : String) :
    List RegRecord × List RegRecord :=
  match dget current_stats metric_type, dget baseline_stats metric_type with
  | some cs, some bs =>
    let mname := metricName metric_type
    let cls := compare_metric renderer mname cs.mean bs.mean
    let result : RegRecord := ⟨renderer, mname, bs.mean, cs.mean, cls.2⟩
    match cls.1 with
    | .regression => (acc.1 ++ [result], acc.2)
    | .improvement => (acc.1, acc.2 ++ [result])
    | .neutral => acc
  | _, _ => acc

/-- Embeds `RegressionDetector.analyze`. -/
def analyze (current baseline : PerfDoc) : AnalysisResult :=
  let bc := baseline.git_commit.getD "unknown"
  let bt := baseline.timestamp.getD "unknown"
  match baseline.renderers with
  | none => ⟨[], [], bc, bt, some "Invalid baseline format"⟩
  | some baseline_renderers =>
    match current.renderers with
    | none => ⟨[], [], bc, bt, some "Invalid current results format"⟩
    | some current_renderers =>
      let acc := current_renderers.foldl
        (fun acc rc =>
          match dget baseline_renderers rc.1 with
          | none => acc
          | some baseline_stats =>
            METRIC_TYPES.foldl (analyzeMetric rc.1 rc.2 baseline_stats) acc)
        ([], [])
      ⟨acc.1, acc.2, bc, bt, none⟩

/-- Exit code of `regression-check.py`'s `main` after a successful load of both
input files: `0` when the analysis carries an `'error'` key, else `1` exactly
when at least one regression was recorded. -/
def regressionExitCode (a : AnalysisResult) : ℕ :=
  if a.error.isSome then 0
  else if a.regressions ≠ [] then 1 else 0

/-! ### Reference definitions for claim C5 (from the claim's words) -/

/-- Reference thresholds exactly as enumerated by the claim. -/
def specThreshold (name : String) : ℚ :=
  if name = "total_time_ms" then 5
  else if name = "parse_time_ms" then 10
  else if name = "layout_time_ms" then 10
  else if name = "paint_time_ms" then 10
  else if name = "memory_mb" then 15
  else 5

/-- Reference classification exactly as worded by the claim: with
`baseline ≠ 0`, `percent_change = (current − baseline)/baseline × 100`;
`regression` iff strictly above the threshold, `improvement` iff strictly
below its negation, `neutral` otherwise; `baseline = 0` yields
`(neutral, 0)` regardless of `current`. -/
def specCompareMetric (name : String) (current baseline : ℚ) :
    Classification × ℚ :=
  if baseline = 0 then (.neutral, 0)
  else
    let pc := (current - baseline) / baseline * 100
    if pc > specThreshold name then (.regression, pc)
    else if pc < -(specThreshold name) then (.improvement, pc)
    else (.neutral, pc)

/-! ## collect_metrics.py : format extractors -/

/-- The fixed closed set of builtin case ids used by `extract_swarm_metrics`. -/
def BUILTIN_IDS : List String := ["new_tab", "about", "settings", "chrome_rustkit", "shelf"]

/-- One element of a swarm report's `results` list; `none` models a missing
key, the extractor applies the source's `.get` defaults. -/
structure SwarmResult where
  diff_pct_median : Option ℚ
  passed : Option Bool
  case_id : Option String
  stable : Option Bool
deriving Repr

/-- The optional `summary` block of a swarm report; a report without a
`summary` key is modelled by the all-`none` value. -/
structure SwarmSummary where
  passed : Option ℤ
  failed : Option ℤ
  stable : Option ℤ
  pass_rate : Option ℚ
deriving Repr

/-- A parsed (truthy) `swarm_report.json` document. -/
structure SwarmReport where
  results : List SwarmResult
  summary : SwarmSummary
  timestamp : Option String
deriving Repr

/-- One element of the `test_results` list built by either visual extractor.
`threshold` is set only by the pixel-diff extractor, `stable` only by the
swarm extractor. -/
structure TestEntry where
  case_id : Option String
  type : String
  parity : ℚ
  diff_pct : ℚ
  threshold : Option ℚ
  passed : Bool
  stable : Option Bool
deriving DecidableEq, Repr

/-- The dict returned by a visual extractor on a non-empty `results` list;
`tests_stable = none` models the pixel-diff extractor, which does not emit
that key. -/
structure ExtractedMetrics where
  visual_parity : ℚ
  builtins_parity : ℚ
  websuite_parity : ℚ
  tests_passed : ℤ
  tests_failed : ℤ
  tests_total : ℤ
  tests_stable : Option ℤ
  pass_rate : ℚ
  test_results : List TestEntry
deriving Repr

/-- Embeds `r.get("diff_pct_median", 100)` in `extract_swarm_metrics`. -/
def swarmDiff (r : SwarmResult) : ℚ := r.diff_pct_median.getD 100

/-- Per-case `parity = 100 - diff_pct` in `extract_swarm_metrics`. -/
def swarmParity (r : SwarmResult) : ℚ := 100 - swarmDiff r

/-- Case classification in `extract_swarm_metrics`: `builtins` iff the
case id (default `"unknown"`) is in the fixed builtin set. -/
def swarmCaseType (r : SwarmResult) : String :=
  if BUILTIN_IDS.contains (r.case_id.getD "unknown") then "builtins" else "websuite"

/-- The `test_result` dict appended per swarm case. -/
def swarmEntry (r : SwarmResult) : TestEntry :=
  ⟨some (r.case_id.getD "unknown"), swarmCaseType r, pyRound (swarmParity r) 2,
   pyRound (swarmDiff r) 2, none, r.passed.getD false, some (r.stable.getD false)⟩

/-- Embeds `extract_swarm_metrics`: returns `none` (the empty dict) when the report
has no results, else the normalized metric dict. -/
def extract_swarm_metrics (swarm_data : SwarmReport) : Option ExtractedMetrics :=
  if swarm_data.results.isEmpty then none
  else
    let results := swarm_data.results
    let summary := swarm_data.summary
    let test_results := results.map swarmEntry
    let builtins := results.filter (fun r => swarmCaseType r == "builtins")
    let websuite := results.filter (fun r => swarmCaseType r == "websuite")
    let avg_parity := (results.map swarmParity).sum / (results.length : ℚ)
    let avg_builtins :=
      if builtins.length ≠ 0 then (builtins.map swarmParity).sum / (builtins.length : ℚ) else 0
    let avg_websuite :=
      if websuite.length ≠ 0 then (websuite.map swarmParity).sum / (websuite.length : ℚ) else 0
    some
      { visual_parity := pyRound avg_parity 2
        builtins_parity := pyRound avg_builtins 2
        websuite_parity := pyRound avg_websuite 2
        tests_passed := summary.passed.getD ((test_results.filter (·.passed)).length : ℤ)
        tests_failed := summary.failed.getD ((test_results.filter (fun t => !t.passed)).length : ℤ)
        tests_total := (results.length : ℤ)
        tests_stable := some (summary.stable.getD
          ((test_results.filter (fun t => t.stable.getD false)).length : ℤ))
        pass_rate := pyRound (summary.pass_rate.getD 0) 1
        test_results := test_results }

/-- One element of a pixel-diff report's `results` list. `diffPercent` models
the nested `r.get("pixel", {}).get("diffPercent", 100)` before defaulting. -/
structure PixelResult where
  diffPercent : Option ℚ
  threshold : Option ℚ
  case_id : Option String
  type : Option String
deriving Repr

/-- A parsed (truthy) `parity_test_results.json` document; `passed`/`failed`
model the optional top-level summary counts. -/
structure PixelReport where
  results : List PixelResult
  passed : Option ℤ
  failed : Option ℤ
  timestamp : Option String
deriving Repr

/-- Defaulted pixel diff percentage. -/
def pixelDiff (r : PixelResult) : ℚ := r.diffPercent.getD 100

/-- Per-case `parity = 100 - diff_pct` in `extract_visual_parity`. -/
def pixelParity (r : PixelResult) : ℚ := 100 - pixelDiff r

/-- Embeds `passed = diff_pct <= threshold` (threshold defaulting to 15), computed
locally rather than trusted from the input. -/
def pixelPassed (r : PixelResult) : Bool := pixelDiff r ≤ r.threshold.getD 15

/-- The `test_result` dict appended per pixel-diff case. -/
def pixelEntry (r : PixelResult) : TestEntry :=
  ⟨r.case_id, r.type.getD "unknown", pyRound (pixelParity r) 2, pyRound (pixelDiff r) 2,
   some (r.threshold.getD 15), pixelPassed r, none⟩

/-- Embeds `extract_visual_parity`: returns `none` (the empty dict) when the report
has no results, else the normalized metric dict. The builtins bucket is
`r.get("type") == "builtins"`; everything else counts as websuite. -/
def extract_visual_parity (parity_test_data : PixelReport) : Option ExtractedMetrics :=
  if parity_test_data.results.isEmpty then none
  else
    let results := parity_test_data.results
    let test_results := results.map pixelEntry
    let builtins := results.filter (fun r => r.type == some "builtins")
    let websuite := results.filter (fun r => r.type != some "builtins")
    let avg_parity := (results.map pixelParity).sum / (results.length : ℚ)
    let avg_builtins :=
      if builtins.length ≠ 0 then (builtins.map pixelParity).sum / (builtins.length : ℚ) else 0
    let avg_websuite :=
      if websuite.length ≠ 0 then (websuite.map pixelParity).sum / (websuite.length : ℚ) else 0
    let passed_count := parity_test_data.passed.getD ((test_results.filter (·.passed)).length : ℤ)
    let failed_count := parity_test_data.failed.getD
      ((test_results.filter (fun t => !t.passed)).length : ℤ)
    some
      { visual_parity := pyRound avg_parity 2
        builtins_parity := pyRound avg_builtins 2
        websuite_parity := pyRound avg_websuite 2
        tests_passed := passed_count
        tests_failed := failed_count
        tests_total := (results.length : ℤ)
        tests_stable := none
        pass_rate := pyRound ((passed_count : ℚ) / (results.length : ℚ) * 100) 1
        test_results := test_results }

/-- One element of a baseline report's `builtin_results`/`websuite_results`
lists: only its (possibly missing, i.e. empty) `perf` sub-dict matters. -/
structure BaselineResultItem where
  perf : List (String × ℚ)
deriving Repr

/-- A parsed (truthy) `baseline_report.json` document. -/
structure BaselineReport where
  metrics : List (String × ℚ)
  issue_clusters : List (String × ℤ)
  builtin_results : List BaselineResultItem
  websuite_results : List BaselineResultItem
  timestamp : Option String
deriving Repr

/-- The dict returned by `extract_baseline_metrics`: exactly the keys
`tier_a_pass_rate`, `issue_clusters` and `perf` (the perf sub-dict is `[]`
when no result item carried a non-empty `perf`). -/
structure BaselineExtract where
  tier_a_pass_rate : ℚ
  issue_clusters : List (String × ℤ)
  perf : List (String × Option ℚ)
deriving Repr

/-- Embeds `extract_baseline_metrics`: tier-A pass rate, issue clusters, and the
first non-empty nested `perf` sub-record scanned across `builtin_results`
then `websuite_results` (first match wins, no merge), rebuilt with the three
fixed keys whose values may be `none`. -/
def extract_baseline_metrics (baseline_data : BaselineReport) : BaselineExtract :=
  let perf :=
    match (baseline_data.builtin_results ++ baseline_data.websuite_results).find?
        (fun r => !r.perf.isEmpty) with
    | some r =>
      [("engine_init_ms", dget r.perf "engine_init_ms"),
       ("html_load_ms", dget r.perf "html_load_ms"),
       ("render_time_ms", dget r.perf "render_time_ms")]
    | none => []
  { tier_a_pass_rate := (dget baseline_data.metrics "tier_a_pass_rate").getD 0
    issue_clusters := baseline_data.issue_clusters
    perf := perf }

/-! ## collect_metrics.py : platform reconciliation -/

/-- The per-platform metrics dict built by `collect_platform_metrics` (and
completed with `perf_grade` by `main`); each `none` models an absent key.
`git_commit` holds the best-effort commit value, possibly null. -/
structure PlatformRecord where
  visual_parity : Option ℚ
  builtins_parity : Option ℚ
  websuite_parity : Option ℚ
  tests_passed : Option ℤ
  tests_failed : Option ℤ
  tests_total : Option ℤ
  tests_stable : Option ℤ
  pass_rate : Option ℚ
  test_results : Option (List TestEntry)
  parity : Option ℚ
  parity_source : Option String
  last_updated : Option String
  issue_clusters : Option (List (String × ℤ))
  perf : Option (List (String × Option ℚ))
  tier_a_pass_rate : Option ℚ
  git_commit : Option String
  perf_grade : Option String
deriving Repr

/-- The empty `metrics = {}` dict. -/
def emptyMetrics : PlatformRecord :=
  ⟨none, none, none, none, none, none, none, none, none, none, none, none,
   none, none, none, none, none⟩

/-- Embeds `metrics.update(visual_metrics)`: copy every key the extractor emitted. -/
def updateWith (m : PlatformRecord) (vm : Option ExtractedMetrics) : PlatformRecord :=
  match vm with
  | none => m
  | some e =>
    { m with
      visual_parity := some e.visual_parity
      builtins_parity := some e.builtins_parity
      websuite_parity := some e.websuite_parity
      tests_passed := some e.tests_passed
      tests_failed := some e.tests_failed
      tests_total := some e.tests_total
      tests_stable := match e.tests_stable with | some v => some v | none => m.tests_stable
      pass_rate := some e.pass_rate
      test_results := some e.test_results }

/-- Embeds `visual_metrics.get("visual_parity", 0)`. -/
def visualParityOf (vm : Option ExtractedMetrics) : ℚ :=
  match vm with
  | some e => e.visual_parity
  | none => 0

/-- Embeds `collect_platform_metrics` for an existing submodule directory, taking the
three already-resolved report files (`none` models "no truthy file found"),
the best-effort git commit and the current timestamp. -/
def collect_platform_metrics (swarm_data : Option SwarmReport)
    (parity_data : Option PixelReport) (baseline_data : Option BaselineReport)
    (git_commit : Option String) (now : String) : Option PlatformRecord :=
  if swarm_data.isNone ∧ parity_data.isNone ∧ baseline_data.isNone then none
  else
    let m := emptyMetrics
    let m :=
      match swarm_data with
      | some sd =>
        let vm := extract_swarm_metrics sd
        { updateWith m vm with
            parity := some (visualParityOf vm)
            parity_source := some "swarm_median"
            last_updated := some (sd.timestamp.getD now) }
      | none =>
        match parity_data with
        | some pd =>
          let vm := extract_visual_parity pd
          { updateWith m vm with
              parity := some (visualParityOf vm)
              parity_source := some "pixel_diff"
              last_updated := some (pd.timestamp.getD now) }
        | none => m
    let m :=
      match baseline_data with
      | none => m
      | some bd =>
        let bm := extract_baseline_metrics bd
        let m :=
          if m.parity.isNone then
            -- baseline_metrics.get("tier_b_weighted_mean", 100): the dict built
            -- by extract_baseline_metrics carries only tier_a_pass_rate,
            -- issue_clusters and perf, so this get always takes its default 100
            let tier_b : ℚ := 100
            { m with
                parity := some (max 0 (100 - tier_b))
                parity_source := some "baseline_estimate"
                last_updated := some (bd.timestamp.getD now) }
          else m
        let m := if !bm.issue_clusters.isEmpty then
            { m with issue_clusters := some bm.issue_clusters } else m
        let m := if !bm.perf.isEmpty then { m with perf := some bm.perf } else m
        { m with tier_a_pass_rate := some bm.tier_a_pass_rate }
    some { m with git_commit := git_commit }

/-- Embeds `calculate_perf_grade`: deterministic A–F scoring; `"?"` for an empty (or
absent) perf map. A metric whose value is null or zero is falsy in the
source's `if engine_init:` / `if render_time:` guards and contributes no
penalty. -/
def calculate_perf_grade (perf : List (String × Option ℚ)) : String :=
  if perf.isEmpty then "?"
  else
    let score : ℤ := 100
    let score :=
      match (dget perf "engine_init_ms").join with
      | some v =>
        if v ≠ 0 then
          if v > 20 then score - 30
          else if v > 10 then score - 15
          else if v > 5 then score - 5
          else score
        else score
      | none => score
    let score :=
      match (dget perf "render_time_ms").join with
      | some v =>
        if v ≠ 0 then
          if v > 50 then score - 30
          else if v > 30 then score - 15
          else if v > 15 then score - 5
          else score
        else score
      | none => score
    if score ≥ 90 then "A"
    else if score ≥ 80 then "B"
    else if score ≥ 70 then "C"
    else if score ≥ 60 then "D"
    else "F"

/-- The record stored into `platforms[platform]` by `main` for an existing
submodule: the collected metrics completed with their `perf_grade`. -/
def mainPlatformRecord (swarm_data : Option SwarmReport)
    (parity_data : Option PixelReport) (baseline_data : Option BaselineReport)
    (git_commit : Option String) (now : String) : Option PlatformRecord :=
  (collect_platform_metrics swarm_data parity_data baseline_data git_commit now).map
    (fun m => { m with perf_grade := some (calculate_perf_grade (m.perf.getD [])) })

/-! ## collect_metrics.py : overall aggregation in main -/

/-- Key function of `main`'s best-perf-map selection:
`-sum(v or 999 for v in x.values()) if x else 0`; a null or zero value is
falsy in Python and counts as 999. -/
def pyKey (x : List (String × Option ℚ)) : ℚ :=
  if x.isEmpty then 0
  else -((x.map (fun kv =>
      match kv.2 with
      | some v => if v ≠ 0 then v else 999
      | none => 999)).sum)

/-- Python `max(cands, key=pyKey, default={})`: the first element whose key is
maximal (Python's `max` keeps the earlier element on ties), `[]` when the
iterable is empty. -/
def bestPerfMap (cands : List (List (String × Option ℚ))) :
    List (String × Option ℚ) :=
  match cands with
  | [] => []
  | x :: xs => xs.foldl (fun best y => if pyKey best < pyKey y then y else best) x

/-- The generator `(p.get("perf", {}) for p in platforms.values() if p)`. -/
def perfCandidates (platforms : List (String × Option PlatformRecord)) :
    List (List (String × Option ℚ)) :=
  platforms.filterMap (fun pr => pr.2.map (fun m => m.perf.getD []))

/-- The list `[p["parity"] for p in platforms.values() if p and "parity" in p]`. -/
def parityValues (platforms : List (String × Option PlatformRecord)) : List ℚ :=
  platforms.filterMap (fun pr => pr.2.bind (fun m => m.parity))

/-- Python `min` of a non-empty list (`0` is never used: the caller guards). -/
def listMin : List ℚ → ℚ
  | [] => 0
  | x :: xs => xs.foldl min x

/-- The `unified["overall"]` dict computed by `main`: set only when at least
one platform carries a parity value. -/
def overallMetrics (platforms : List (String × Option PlatformRecord)) :
    Option (ℚ × String) :=
  if (parityValues platforms).isEmpty then none
  else some (pyRound (listMin (parityValues platforms)) 1,
    calculate_perf_grade (bestPerfMap (perfCandidates platforms)))

/-! ## collect_metrics.py : update_history -/

/-- One history entry `{date, platform: parity, ..., perf: {...}}`. Platform
parity keys and the `perf` sub-dict are kept in separate components (the
platform names `macos`/`windows`/`linux` never collide with the `date` and
`perf` keys). -/
structure HistoryEntry where
  date : String
  parities : List (String × ℚ)
  perf : List (String × ℚ)
deriving DecidableEq, Repr

/-- The fresh `{"date": today}` entry appended when today has no entry yet. -/
def freshEntry (today : String) : HistoryEntry := ⟨today, [], []⟩

/-- First half of `update_history`'s per-platform loop body: store the
platform's parity under the platform's name when the record carries one
(`if data and "parity" in data`). -/
def parityStep (e : HistoryEntry) (pr : String × Option PlatformRecord) :
    HistoryEntry :=
  match pr.2 with
  | some d =>
    match d.parity with
    | some p => { e with parities := dictSet e.parities pr.1 p }
    | none => e
  | none => e

/-- Second half of the loop body: when the record carries a truthy perf dict
(`if data and data.get("perf")`), write each of its non-null values into the
entry's perf sub-dict. -/
def perfStep (e : HistoryEntry) (pr : String × Option PlatformRecord) :
    HistoryEntry :=
  match pr.2 with
  | some d =>
    match d.perf with
    | some pf =>
      if !pf.isEmpty then
        { e with perf := pf.foldl (fun acc kv =>
            match kv.2 with
            | some v => dictSet acc kv.1 v
            | none => acc) e.perf }
      else e
    | none => e
  | none => e

/-- One iteration of `update_history`'s per-platform loop. -/
def updateEntryStep (e : HistoryEntry) (pr : String × Option PlatformRecord) :
    HistoryEntry :=
  perfStep (parityStep e pr) pr

/-- The whole per-platform loop of `update_history` applied to today's entry. -/
def updateEntryWith (e : HistoryEntry)
    (platforms : List (String × Option PlatformRecord)) : HistoryEntry :=
  platforms.foldl updateEntryStep e

/-- In-place replacement of the first entry whose date is `today` (the entry
`update_history` found and mutated). -/
def replaceFirstToday : List HistoryEntry → String → HistoryEntry → List HistoryEntry
  | [], _, _ => []
  | e :: es, today, u =>
    if e.date = today then u :: es else e :: replaceFirstToday es today u

/-- Python's stable `sorted(history, key=lambda x: x.get("date", ""))`. -/
def sortByDate (l : List HistoryEntry) : List HistoryEntry :=
  l.mergeSort (fun a b => decide (a.date ≤ b.date))

/-- Python `history[-90:]`: the last `n` elements. -/
def lastN (n : ℕ) (l : List HistoryEntry) : List HistoryEntry :=
  l.drop (l.length - n)

/-- The upsert part of `update_history`: today's entry (looked up by exact
date match, created when absent) is updated in place by the platform loop. -/
def upsertToday (history : List HistoryEntry) (today : String)
    (platforms : List (String × Option PlatformRecord)) : List HistoryEntry :=
  match history.find? (fun e => e.date == today) with
  | some e => replaceFirstToday history today (updateEntryWith e platforms)
  | none => history ++ [updateEntryWith (freshEntry today) platforms]

/-- Embeds `update_history`: upsert today's entry, then keep the newest 90 of the
date-sorted history. -/
def update_history (history : List HistoryEntry) (today : String)
    (platforms : List (String × Option PlatformRecord)) : List HistoryEntry :=
  lastN 90 (sortByDate (upsertToday history today platforms))

/-- The entry `update_history` starts from for today: the first entry with
today's date, else the fresh `{"date": today}` dict. -/
def todayBase (history : List HistoryEntry) (today : String) : HistoryEntry :=
  (history.find? (fun e => e.date == today)).getD (freshEntry today)

/-! ## Claim C1 -/

/-- Claim C1's reading of baseline-estimate parity, from the spec's words:
`parity = max(0, 100 − tier_b_weighted_mean)` where the weighted mean is the
value carried by the baseline report (in its `metrics` block, next to
`tier_a_pass_rate`), defaulting to 100 when the report omits it. -/
def specBaselineParity (b : BaselineReport) : ℚ :=
  max 0 (100 - (dget b.metrics "tier_b_weighted_mean").getD 100)

/-- A baseline report that carries `tier_b_weighted_mean = 20`. -/
def c1Report : BaselineReport :=
  ⟨[("tier_b_weighted_mean", 20), ("tier_a_pass_rate", 1/2)], [], [], [], none⟩

/-! ## Claim C2 -/

/-- A swarm report that parses truthy but carries an empty results list. -/
def c2EmptySwarm : SwarmReport := ⟨[], ⟨none, none, none, none⟩, none⟩

/-- Concrete single-result swarm and pixel-diff reports for the C4 witness. -/
def c4Swarm : SwarmReport :=
  ⟨[⟨some 5, some true, some "shelf", some true⟩], ⟨none, none, none, none⟩, none⟩

/-- Concrete pixel-diff report used alongside `c4Swarm`. -/
def c4Pixel : PixelReport :=
  ⟨[⟨some 10, some 15, some "page_a", some "websuite"⟩], none, none, none⟩

/-! ## Claim C9 -/

/-- A swarm report with a single websuite result (no builtins at all). -/
def c9Swarm : SwarmReport :=
  ⟨[⟨some 10, some true, some "page_x", some true⟩], ⟨none, none, none, none⟩, none⟩

/-! ## Claim C6 -/

/-- The pass rate the claim prescribes: `round(k/N*100, 1)`. -/
def specPassRate (k n : ℕ) : ℚ := pyRound ((k : ℚ) / (n : ℚ) * 100) 1

/-- A swarm report with one passing result and no summary block. -/
def c6Swarm : SwarmReport :=
  ⟨[⟨some 10, some true, some "p1", some true⟩], ⟨none, none, none, none⟩, none⟩

/-- A one-result pixel-diff report without a top-level `passed` override. -/
def c6Pixel : PixelReport :=
  ⟨[⟨some 10, some 15, some "page_b", some "websuite"⟩], none, none, none⟩

/-- Sum of a perf map's own (non-null) metric values, as the claim words the
selection key ("sum of its own perf metric values"). -/
def specSumVals (x : List (String × Option ℚ)) : ℚ :=
  (x.filterMap (fun kv => kv.2)).sum

/-- The claim's selection rule: the first candidate perf map whose `specSumVals`
is largest. -/
def specBestPerfMap (cands : List (List (String × Option ℚ))) :
    List (String × Option ℚ) :=
  match cands with
  | [] => []
  | x :: xs =>
    xs.foldl (fun best y => if specSumVals best < specSumVals y then y else best) x

/-- The overall performance grade the claim prescribes: §4.4 grading of the
perf map with the largest sum of its own metric values. -/
def specOverallPerfGrade (platforms : List (String × Option PlatformRecord)) : String :=
  calculate_perf_grade (specBestPerfMap (perfCandidates platforms))

/-- Two recorded platforms: one slow with a big perf sum, one fast. -/
def c3Platforms : List (String × Option PlatformRecord) :=
  [("macos", some { emptyMetrics with
      parity := some 50
      perf := some [("engine_init_ms", some 100)] }),
   ("windows", some { emptyMetrics with
      parity := some 60
      perf := some [("engine_init_ms", some 1)] })]

/-! ## Claims C7 and C10 : machinery -/

/-- Fold a list of "writes" over an accumulator: each element may write a
value (`w x = some v`), in which case it overwrites the accumulator. -/
def foldWrite {α : Type} (w : α → Option ℚ) (init : Option ℚ) (l : List α) : Option ℚ :=
  l.foldl (fun acc x => ((w x).orElse (fun _ => acc))) init

/-- The last value written by the list, if any. -/
def lastWrite {α : Type} (w : α → Option ℚ) (l : List α) : Option ℚ :=
  foldWrite w none l

/-- The parity value platform `pr` supplies for the history entry key `plat`:
present when the platform has a record whose dict carries `parity`. -/
def parityWrite (plat : String) (pr : String × Option PlatformRecord) : Option ℚ :=
  if pr.1 = plat then pr.2.bind (fun d => d.parity) else none

/-- The value the perf-merge loop writes for perf key `k` while processing
platform `pr`: the last non-null value stored at `k` in the platform's
non-empty perf dict, if any. -/
def perfWrite (k : String) (pr : String × Option PlatformRecord) : Option ℚ :=
  match pr.2 with
  | some d =>
    match d.perf with
    | some pf =>
      if !pf.isEmpty then
        lastWrite (fun kv => if kv.1 = k then kv.2 else none) pf
      else none
    | none => none
  | none => none

/-- Single-platform input used by the C7 witness. -/
def c7Platforms : List (String × Option PlatformRecord) :=
  [("macos", some { emptyMetrics with parity := some 50 })]

/-- Two platforms both supplying `engine_init_ms`, used by the C10 witness. -/
def c10Platforms : List (String × Option PlatformRecord) :=
  [("macos", some { emptyMetrics with
      parity := some 50
      perf := some [("engine_init_ms", some 7)] }),
   ("windows", some { emptyMetrics with
      parity := some 60
      perf := some [("engine_init_ms", some 9)] })]

/-! ## Theorems -/

@[simp] theorem dget_nil {α : Type} (k : String) : dget ([] : List (String × α)) k = none := rfl

@[simp] theorem dget_cons {α : Type} (p : String × α) (t : List (String × α))
    (k : String) : dget (p :: t) k = if p.1 = k then some p.2 else dget t k := rfl

theorem dget_eq_none_of_not_dhas {α : Type} {l : List (String × α)} {k : String}
    (h : dhas l k = false) : dget l k = none := by
  induction l with
  | nil => rfl
  | cons p t ih =>
    simp only [dhas, List.any_cons, Bool.or_eq_false_iff, decide_eq_false_iff_not] at h
    simp [h.1, ih (by simp [dhas, h.2])]

theorem dget_overwrite_map_ne {α : Type} (l : List (String × α)) (k : String)
    (v : α) (k' : String) (hne : k' ≠ k) :
    dget (l.map (fun p => if p.1 = k then (k, v) else p)) k' = dget l k' := by
  induction l with
  | nil => simp
  | cons p t ih =>
    by_cases hp : p.1 = k
    · have h1 : ¬ k = k' := fun h => hne h.symm
      have h2 : ¬ p.1 = k' := fun h => hne (hp ▸ h : k = k').symm
      simp [hp, h1, h2, ih]
    · simp only [List.map_cons, if_neg hp, dget_cons]
      by_cases hk' : p.1 = k'
      · simp [hk']
      · simp [hk', ih]

theorem dget_overwrite_map_eq {α : Type} (l : List (String × α)) (k : String)
    (v : α) (hany : dhas l k = true) :
    dget (l.map (fun p => if p.1 = k then (k, v) else p)) k = some v := by
  induction l with
  | nil => simp [dhas] at hany
  | cons p t ih =>
    by_cases hp : p.1 = k
    · simp [hp]
    · have ht : dhas t k = true := by
        simpa [dhas, List.any_cons, hp] using hany
      simp [hp, ih ht]

theorem dget_append_single {α : Type} (l : List (String × α)) (q : String × α)
    (k' : String) :
    dget (l ++ [q]) k' = ((dget l k').orElse (fun _ => dget [q] k')) := by
  induction l with
  | nil => simp [Option.orElse]
  | cons p t ih =>
    simp only [List.cons_append, dget_cons]
    by_cases hk' : p.1 = k'
    · simp [hk', Option.orElse]
    · simp [hk', ih]

/-- Characterisation of `dictSet` through `dget`: the written key now maps to
the new value, every other key is untouched. -/
theorem dget_dictSet {α : Type} (l : List (String × α)) (k : String) (v : α)
    (k' : String) :
    dget (dictSet l k v) k' = if k' = k then some v else dget l k' := by
  by_cases hany : dhas l k
  · simp only [dictSet, if_pos hany]
    by_cases h : k' = k
    · subst h; simp [dget_overwrite_map_eq l k' v hany]
    · simp [h, dget_overwrite_map_ne l k v k' h]
  · have hnone := dget_eq_none_of_not_dhas (Bool.not_eq_true _ ▸ hany)
    simp only [dictSet, if_neg hany, dget_append_single]
    by_cases h : k' = k
    · subst h; simp [hnone, Option.orElse]
    · have h' : ¬ k = k' := fun hh => h hh.symm
      cases hl : dget l k' <;> simp [Option.orElse, h, h', hl]

theorem dget_THRESHOLDS (name : String) :
    (dget THRESHOLDS name).getD 5 = specThreshold name := by
  simp only [THRESHOLDS, specThreshold, dget_cons, dget_nil]
  by_cases h1 : name = "total_time_ms"
  · simp [h1]
  · by_cases h2 : name = "parse_time_ms"
    · simp [h2]
    · by_cases h3 : name = "layout_time_ms"
      · simp [h3]
      · by_cases h4 : name = "paint_time_ms"
        · simp [h4]
        · by_cases h5 : name = "memory_mb"
          · simp [h5]
          · have g1 : ¬ "total_time_ms" = name := fun h => h1 h.symm
            have g2 : ¬ "parse_time_ms" = name := fun h => h2 h.symm
            have g3 : ¬ "layout_time_ms" = name := fun h => h3 h.symm
            have g4 : ¬ "paint_time_ms" = name := fun h => h4 h.symm
            have g5 : ¬ "memory_mb" = name := fun h => h5 h.symm
            simp [h1, h2, h3, h4, h5, g1, g2, g3, g4, g5]

/-- C5. The per-metric classification function `compare_metric` coincides, for
every metric name, current value and baseline value, with the reference
definition spelt out by the claim: `percent_change = (current − baseline) /
baseline × 100` when `baseline ≠ 0`, classified `regression` iff strictly
above the per-metric threshold (`total_time_ms=5`, `parse_time_ms=10`,
`layout_time_ms=10`, `paint_time_ms=10`, `memory_mb=15`, otherwise `5`),
`improvement` iff strictly below its negation, `neutral` otherwise — so a
`percent_change` exactly at the threshold is `neutral` — and `baseline = 0`
yields `(neutral, 0)` regardless of `current`. -/
theorem c5_compare_metric_matches_spec (renderer name : String)
    (current baseline : ℚ) :
    compare_metric renderer name current baseline =
      specCompareMetric name current baseline := by
  unfold compare_metric specCompareMetric
  rw [dget_THRESHOLDS]

/-- C8. When the baseline document lacks the `renderers` key, `analyze`
short-circuits to a result with empty regression and improvement lists and
the error marker `"Invalid baseline format"`, and the process exit code is
`0` (success). -/
theorem c8_missing_renderers_short_circuits (current baseline : PerfDoc)
    (h : baseline.renderers = none) :
    analyze current baseline =
      ⟨[], [], baseline.git_commit.getD "unknown",
        baseline.timestamp.getD "unknown", some "Invalid baseline format"⟩ ∧
    regressionExitCode (analyze current baseline) = 0 := by
  unfold analyze
  rw [h]
  exact ⟨rfl, rfl⟩

/-- C8 witness: the short-circuit behaviour at a concrete pair of documents
(a current document with one renderer, a baseline without `renderers`). -/
theorem c8_missing_renderers_short_circuits_witness :
    analyze ⟨some "abc1234", some "2026-10-01", some [("chromium", [("total_time", ⟨110⟩)])]⟩
        ⟨none, none, none⟩ =
      ⟨[], [], "unknown", "unknown", some "Invalid baseline format"⟩ ∧
    regressionExitCode
      (analyze ⟨some "abc1234", some "2026-10-01", some [("chromium", [("total_time", ⟨110⟩)])]⟩
        ⟨none, none, none⟩) = 0 :=
  c8_missing_renderers_short_circuits _ _ rfl

/-- C1. The baseline-estimate parity never reflects the report's
`tier_b_weighted_mean`: `collect_platform_metrics` reads that key from the
dict returned by `extract_baseline_metrics`, which only ever contains
`tier_a_pass_rate`, `issue_clusters` and `perf`, so the default 100 is always
taken and the recorded parity is `max(0, 100 − 100) = 0` for every
baseline-only platform. In particular, for a report carrying
`tier_b_weighted_mean = 20` the claim's formula gives 80 while the code
records 0. -/
theorem c1_baseline_parity_always_zero :
    (∀ (b : BaselineReport) (git : Option String) (now : String),
      ((collect_platform_metrics none none (some b) git now).bind
        (fun m => m.parity)) = some 0) ∧
    ((collect_platform_metrics none none (some c1Report) none "t").bind
      (fun m => m.parity)) = some 0 ∧
    specBaselineParity c1Report = 80 := by
  have hall : ∀ (b : BaselineReport) (git : Option String) (now : String),
      ((collect_platform_metrics none none (some b) git now).bind
        (fun m => m.parity)) = some 0 := by
    intro b git now
    unfold collect_platform_metrics
    split_ifs <;> simp_all [emptyMetrics, updateWith] <;>
      split_ifs <;> simp_all <;> norm_num
  refine ⟨hall, hall c1Report none "t", ?_⟩
  unfold specBaselineParity c1Report
  norm_num [dget]

/-- C2 counterexample: a platform whose swarm report resolves successfully
with an empty results list does NOT collapse to "no record" — the code
produces a record, with the zero-valued default parity and
`parity_source = "swarm_median"`, so absence is not what the claim states. -/
theorem c2_counterexample :
    (collect_platform_metrics (some c2EmptySwarm) none none none "t").isSome = true ∧
    ((collect_platform_metrics (some c2EmptySwarm) none none none "t").bind
      (fun m => m.parity)) = some 0 ∧
    ((collect_platform_metrics (some c2EmptySwarm) none none none "t").bind
      (fun m => m.parity_source)) = some "swarm_median" := by
  refine ⟨?_, ?_, ?_⟩ <;>
    simp [collect_platform_metrics, c2EmptySwarm, extract_swarm_metrics,
      updateWith, visualParityOf, emptyMetrics]

/-- C2 (amended). A platform produces no record exactly when none of the
three report files resolves; a swarm report that resolves with an empty
results list still yields a record, carrying the default parity 0 and
`parity_source = "swarm_median"` (zero-valued metrics, not absence). -/
theorem c2_amended_absence_iff_no_source :
    (∀ (s : Option SwarmReport) (p : Option PixelReport) (b : Option BaselineReport)
        (git : Option String) (now : String),
      collect_platform_metrics s p b git now = none ↔
        (s = none ∧ p = none ∧ b = none)) ∧
    (∀ (sw : SwarmReport) (p : Option PixelReport) (b : Option BaselineReport)
        (git : Option String) (now : String), sw.results = [] →
      ((collect_platform_metrics (some sw) p b git now).bind (fun m => m.parity)) =
        some 0 ∧
      ((collect_platform_metrics (some sw) p b git now).bind (fun m => m.parity_source)) =
        some "swarm_median") := by
  constructor
  · intro s p b git now
    cases s <;> cases p <;> cases b <;> simp [collect_platform_metrics]
  · intro sw p b git now h
    have he : extract_swarm_metrics sw = none := by simp [extract_swarm_metrics, h]
    unfold collect_platform_metrics
    cases b <;> split_ifs <;>
      simp_all [updateWith, visualParityOf, emptyMetrics] <;>
      split_ifs <;> simp_all

/-- C2 amended-claim witness: no sources resolving yields no record, and an
empty-results swarm report yields the zero-parity record. -/
theorem c2_amended_absence_iff_no_source_witness :
    collect_platform_metrics none none none none "t" = none ∧
    ((collect_platform_metrics (some c2EmptySwarm) none none none "t").bind
      (fun m => m.parity)) = some 0 :=
  ⟨(c2_amended_absence_iff_no_source.1 none none none none "t").mpr ⟨rfl, rfl, rfl⟩,
   (c2_amended_absence_iff_no_source.2 c2EmptySwarm none none none "t" rfl).1⟩

/-! ## Claim C4 -/

/-- C4. Extractor precedence. When both a swarm report and a pixel-diff
report resolve (each with a non-empty results list), the produced record's
parity, parity source and test counts all come from the swarm extractor and
`parity_source = "swarm_median"`, whatever baseline report is present; when
the swarm report is absent, the pixel-diff report wins over the baseline
estimate and `parity_source = "pixel_diff"`. -/
theorem c4_swarm_beats_pixel_beats_baseline (sw : SwarmReport) (pd : PixelReport)
    (b : Option BaselineReport) (git : Option String) (now : String)
    (h1 : sw.results ≠ []) (h2 : pd.results ≠ []) :
    (((collect_platform_metrics (some sw) (some pd) b git now).bind
        (fun m => m.parity)) =
      (extract_swarm_metrics sw).map (fun e => e.visual_parity) ∧
     ((collect_platform_metrics (some sw) (some pd) b git now).bind
        (fun m => m.parity_source)) = some "swarm_median" ∧
     ((collect_platform_metrics (some sw) (some pd) b git now).bind
        (fun m => m.tests_passed)) =
      (extract_swarm_metrics sw).map (fun e => e.tests_passed) ∧
     ((collect_platform_metrics (some sw) (some pd) b git now).bind
        (fun m => m.tests_failed)) =
      (extract_swarm_metrics sw).map (fun e => e.tests_failed) ∧
     ((collect_platform_metrics (some sw) (some pd) b git now).bind
        (fun m => m.tests_total)) =
      (extract_swarm_metrics sw).map (fun e => e.tests_total) ∧
     ((collect_platform_metrics (some sw) (some pd) b git now).bind
        (fun m => m.pass_rate)) =
      (extract_swarm_metrics sw).map (fun e => e.pass_rate)) ∧
    ((collect_platform_metrics none (some pd) b git now).bind
        (fun m => m.parity_source)) = some "pixel_diff" := by
  have hse : ¬ sw.results.isEmpty = true := by simp [List.isEmpty_iff, h1]
  obtain ⟨e, he⟩ : ∃ e, extract_swarm_metrics sw = some e := by
    unfold extract_swarm_metrics
    rw [if_neg hse]
    exact ⟨_, rfl⟩
  constructor
  · rw [he]
    cases b <;>
      simp_all [collect_platform_metrics, updateWith, visualParityOf] <;>
      split_ifs <;> simp_all
  · cases b <;>
      simp_all [collect_platform_metrics, updateWith, visualParityOf] <;>
      split_ifs <;> simp_all

/-- C4 witness: at the concrete pair of non-empty reports, the record's
parity source is the swarm extractor's, and without the swarm report the
pixel-diff extractor wins. -/
theorem c4_swarm_beats_pixel_beats_baseline_witness :
    c4Swarm.results ≠ [] ∧ c4Pixel.results ≠ [] ∧
    ((collect_platform_metrics (some c4Swarm) (some c4Pixel) none none "t").bind
      (fun m => m.parity_source)) = some "swarm_median" ∧
    ((collect_platform_metrics none (some c4Pixel) none none "t").bind
      (fun m => m.parity_source)) = some "pixel_diff" := by
  have h := c4_swarm_beats_pixel_beats_baseline c4Swarm c4Pixel none none "t"
    (by simp [c4Swarm]) (by simp [c4Pixel])
  exact ⟨by simp [c4Swarm], by simp [c4Pixel], h.1.2.1, h.2⟩

/-- C9 counterexample: with zero builtins tests the produced record still
carries the `builtins_parity` key — zero-filled, not absent as claimed. -/
theorem c9_counterexample :
    ((collect_platform_metrics (some c9Swarm) none none none "t").bind
      (fun m => m.builtins_parity)) = some 0 := by
  simp [collect_platform_metrics, c9Swarm, extract_swarm_metrics, updateWith,
    visualParityOf, emptyMetrics, swarmCaseType, swarmEntry, BUILTIN_IDS,
    swarmDiff, swarmParity]
  norm_num [pyRound, pyRoundInt]

/-- C9 (amended). When a category has zero qualifying tests, the
corresponding sub-category parity field is still present in the produced
record, zero-filled: the empty category's mean defaults to 0 and is rounded
and stored, in both the swarm and the pixel-diff extractor. -/
theorem c9_amended_empty_category_zero_filled :
    (∀ sw : SwarmReport, sw.results ≠ [] →
      ((sw.results.filter (fun r => swarmCaseType r == "builtins")) = [] →
        (extract_swarm_metrics sw).map (fun e => e.builtins_parity) = some 0) ∧
      ((sw.results.filter (fun r => swarmCaseType r == "websuite")) = [] →
        (extract_swarm_metrics sw).map (fun e => e.websuite_parity) = some 0)) ∧
    (∀ pd : PixelReport, pd.results ≠ [] →
      ((pd.results.filter (fun r => r.type == some "builtins")) = [] →
        (extract_visual_parity pd).map (fun e => e.builtins_parity) = some 0) ∧
      ((pd.results.filter (fun r => r.type != some "builtins")) = [] →
        (extract_visual_parity pd).map (fun e => e.websuite_parity) = some 0)) := by
  have h0 : pyRound 0 2 = 0 := by norm_num [pyRound, pyRoundInt]
  constructor
  · intro sw hne
    constructor
    · intro hb
      unfold extract_swarm_metrics
      rw [if_neg (by simp [List.isEmpty_iff, hne])]
      simp [hb, h0]
    · intro hw
      unfold extract_swarm_metrics
      rw [if_neg (by simp [List.isEmpty_iff, hne])]
      simp [hw, h0]
  · intro pd hne
    constructor
    · intro hb
      unfold extract_visual_parity
      rw [if_neg (by simp [List.isEmpty_iff, hne])]
      simp [hb, h0]
    · intro hw
      unfold extract_visual_parity
      rw [if_neg (by simp [List.isEmpty_iff, hne])]
      simp [hw, h0]

/-- C9 amended-claim witness: the swarm report with one websuite test has an
empty builtins bucket, and its extracted `builtins_parity` is a present,
zero-valued field. -/
theorem c9_amended_empty_category_zero_filled_witness :
    c9Swarm.results ≠ [] ∧
    (c9Swarm.results.filter (fun r => swarmCaseType r == "builtins")) = [] ∧
    (extract_swarm_metrics c9Swarm).map (fun e => e.builtins_parity) = some 0 := by
  have h1 : c9Swarm.results ≠ [] := by simp [c9Swarm]
  have h2 : (c9Swarm.results.filter (fun r => swarmCaseType r == "builtins")) = [] := by
    simp [c9Swarm, swarmCaseType, BUILTIN_IDS]
  exact ⟨h1, h2, ((c9_amended_empty_category_zero_filled.1 c9Swarm h1).1 h2)⟩

/-- C6 counterexample: for a swarm input with one result, all passing, the
extracted `pass_rate` is `round(summary.get("pass_rate", 0), 1) = 0`, not the
claimed `round(k/N*100, 1) = 100`. -/
theorem c6_counterexample :
    ((extract_swarm_metrics c6Swarm).map (fun e => e.tests_passed)) = some 1 ∧
    ((extract_swarm_metrics c6Swarm).map (fun e => e.pass_rate)) = some 0 ∧
    specPassRate 1 1 = 100 ∧ (0 : ℚ) ≠ 100 := by
  refine ⟨?_, ?_, ?_, by norm_num⟩
  · simp [c6Swarm, extract_swarm_metrics, swarmEntry]
  · simp [c6Swarm, extract_swarm_metrics]
    norm_num [pyRound, pyRoundInt]
  · norm_num [specPassRate, pyRound, pyRoundInt]

/-- C6 (amended). The pixel-diff extractor satisfies the claim whenever the
report carries no explicit top-level `passed` count: `tests_passed` is the
number `k` of passing results and `pass_rate = round(k/N*100, 1)`. The swarm
extractor derives `tests_passed = k` only when the summary omits `passed`,
and takes `pass_rate` from `round(summary.get("pass_rate", 0), 1)` — never
from the counts. -/
theorem c6_amended_pass_rate_sources :
    (∀ pd : PixelReport, pd.results ≠ [] → pd.passed = none →
      ((extract_visual_parity pd).map (fun e => e.tests_passed)) =
        some ((pd.results.filter (fun r => pixelPassed r)).length : ℤ) ∧
      ((extract_visual_parity pd).map (fun e => e.pass_rate)) =
        some (specPassRate (pd.results.filter (fun r => pixelPassed r)).length
          pd.results.length)) ∧
    (∀ sw : SwarmReport, sw.results ≠ [] →
      (sw.summary.passed = none →
        ((extract_swarm_metrics sw).map (fun e => e.tests_passed)) =
          some ((sw.results.filter (fun r => r.passed.getD false)).length : ℤ)) ∧
      ((extract_swarm_metrics sw).map (fun e => e.pass_rate)) =
        some (pyRound (sw.summary.pass_rate.getD 0) 1)) := by
  constructor
  · intro pd hne hp
    have hcount : ((pd.results.map pixelEntry).filter (fun t => t.passed)).length =
        (pd.results.filter (fun r => pixelPassed r)).length := by
      rw [List.filter_map]
      have hpred : ((fun t : TestEntry => t.passed) ∘ pixelEntry) =
          (fun r => pixelPassed r) := by
        funext r; simp [pixelEntry]
      rw [hpred, List.length_map]
    constructor
    · unfold extract_visual_parity
      rw [if_neg (by simp [List.isEmpty_iff, hne])]
      simp [hp, hcount]
    · unfold extract_visual_parity
      rw [if_neg (by simp [List.isEmpty_iff, hne])]
      simp only [Option.map_some]
      rw [hp]
      simp only [Option.getD_none]
      rw [hcount]
      unfold specPassRate
      norm_num
  · intro sw hne
    constructor
    · intro hp
      have hcount : ((sw.results.map swarmEntry).filter (fun t => t.passed)).length =
          (sw.results.filter (fun r => r.passed.getD false)).length := by
        rw [List.filter_map]
        have hpred : ((fun t : TestEntry => t.passed) ∘ swarmEntry) =
            (fun r => r.passed.getD false) := by
          funext r; simp [swarmEntry]
        rw [hpred, List.length_map]
      unfold extract_swarm_metrics
      rw [if_neg (by simp [List.isEmpty_iff, hne])]
      simp [hp, hcount]
    · unfold extract_swarm_metrics
      rw [if_neg (by simp [List.isEmpty_iff, hne])]
      simp

/-- C6 amended-claim witness: a one-result pixel report with no `passed`
override derives `tests_passed = 1`, and the one-result swarm report with no
summary derives `tests_passed = 1`. -/
theorem c6_amended_pass_rate_sources_witness :
    c6Pixel.results ≠ [] ∧ c6Pixel.passed = none ∧ c6Swarm.results ≠ [] ∧
    ((extract_visual_parity c6Pixel).map (fun e => e.tests_passed)) =
      some ((c6Pixel.results.filter (fun r => pixelPassed r)).length : ℤ) ∧
    ((extract_swarm_metrics c6Swarm).map (fun e => e.tests_passed)) =
      some ((c6Swarm.results.filter (fun r => r.passed.getD false)).length : ℤ) := by
  have hp : c6Pixel.results ≠ [] := by simp [c6Pixel]
  have hs : c6Swarm.results ≠ [] := by simp [c6Swarm]
  exact ⟨hp, rfl, hs,
    (c6_amended_pass_rate_sources.1 c6Pixel hp rfl).1,
    (c6_amended_pass_rate_sources.2 c6Swarm hs).1 rfl⟩

/-! ## Claim C3 -/

/-- A fold with `if key best < key y then y else best` returns an element of
the list (seed included) whose key is maximal; ties keep the earlier element,
as Python's `max` does. -/
theorem foldl_maxBy_spec {α : Type} (key : α → ℚ) :
    ∀ (xs : List α) (x : α),
      (xs.foldl (fun best y => if key best < key y then y else best) x) ∈ x :: xs ∧
      ∀ z ∈ x :: xs, key z ≤
        key (xs.foldl (fun best y => if key best < key y then y else best) x) := by
  intro xs
  induction xs with
  | nil => intro x; simp
  | cons y ys ih =>
    intro x
    set x' := if key x < key y then y else x with hx'
    have hfold : (y :: ys).foldl (fun best y => if key best < key y then y else best) x =
        ys.foldl (fun best y => if key best < key y then y else best) x' := by
      simp [List.foldl_cons]
    obtain ⟨hmem, hle⟩ := ih x'
    have hx'mem : x' = x ∨ x' = y := by
      by_cases h : key x < key y
      · right; simp [hx', h]
      · left; simp [hx', h]
    have hkeyx : key x ≤ key x' := by
      by_cases h : key x < key y
      · rw [hx', if_pos h]; exact le_of_lt h
      · rw [hx', if_neg h]
    have hkeyy : key y ≤ key x' := by
      by_cases h : key x < key y
      · rw [hx', if_pos h]
      · rw [hx', if_neg h]; exact le_of_not_lt h
    constructor
    · rw [hfold]
      rcases List.mem_cons.mp hmem with h | h
      · rw [h]
        rcases hx'mem with h2 | h2 <;> rw [h2] <;> simp
      · exact List.mem_cons_of_mem _ (List.mem_cons_of_mem _ h)
    · intro z hz
      rw [hfold]
      rcases List.mem_cons.mp hz with h | h
      · subst h
        exact le_trans hkeyx (hle x' (List.mem_cons_self _ _))
      · rcases List.mem_cons.mp h with h2 | h2
        · subst h2
          exact le_trans hkeyy (hle x' (List.mem_cons_self _ _))
        · exact hle z (List.mem_cons_of_mem _ h2)

/-- C3 counterexample: the code grades the perf map of the platform with the
SMALLEST sum (its max-key is the negated sum), yielding grade "A" from the
fast platform, while the claim's largest-sum selection would grade the slow
platform's map "C". -/
theorem c3_counterexample :
    ((overallMetrics c3Platforms).map Prod.snd) = some "A" ∧
    specOverallPerfGrade c3Platforms = "C" ∧ ("A" : String) ≠ "C" := by
  have hcands : perfCandidates c3Platforms =
      [[("engine_init_ms", some 100)], [("engine_init_ms", some 1)]] := by
    simp [perfCandidates, c3Platforms]
  have hns : ¬ (("engine_init_ms" : String) = "render_time_ms") := by decide
  refine ⟨?_, ?_, by decide⟩
  · rw [overallMetrics, if_neg (by simp [parityValues, c3Platforms])]
    have hbest : bestPerfMap (perfCandidates c3Platforms) = [("engine_init_ms", some 1)] := by
      rw [hcands]
      norm_num [bestPerfMap, pyKey]
    rw [hbest]
    norm_num [calculate_perf_grade, dget, Option.join, if_neg hns]
  · have hbest : specBestPerfMap (perfCandidates c3Platforms) =
        [("engine_init_ms", some 100)] := by
      rw [hcands]
      norm_num [specBestPerfMap, specSumVals, List.filterMap_cons]
    rw [specOverallPerfGrade, hbest]
    norm_num [calculate_perf_grade, dget, Option.join, if_neg hns]

/-- C3 (amended). When at least one platform carries a parity value, the
overall performance grade is the §4.4 grading of a candidate perf map (a
recorded platform's perf, `[]` when missing) whose Python selection key —
`0` for an empty map, else `-sum(v or 999 over its values)` — is maximal
among all candidates; i.e. among non-empty maps the SMALLEST such sum wins
(null/zero values counted as 999), and an empty perf map beats every map
with a positive sum. -/
theorem c3_amended_best_is_max_pyKey (platforms : List (String × Option PlatformRecord))
    (h : parityValues platforms ≠ []) :
    ∃ m ∈ perfCandidates platforms,
      (overallMetrics platforms).map Prod.snd = some (calculate_perf_grade m) ∧
      ∀ m' ∈ perfCandidates platforms, pyKey m' ≤ pyKey m := by
  have hc : perfCandidates platforms ≠ [] := by
    intro hc
    apply h
    unfold parityValues
    rw [List.filterMap_eq_nil_iff]
    intro pr hpr
    unfold perfCandidates at hc
    rw [List.filterMap_eq_nil_iff] at hc
    have hpr2 := hc pr hpr
    cases hp : pr.2 with
    | none => simp [hp]
    | some m => rw [hp] at hpr2; simp at hpr2
  obtain ⟨x, xs, hxs⟩ : ∃ x xs, perfCandidates platforms = x :: xs := by
    cases hcc : perfCandidates platforms with
    | nil => exact absurd hcc hc
    | cons a l => exact ⟨a, l, rfl⟩
  obtain ⟨hmem, hle⟩ := foldl_maxBy_spec pyKey xs x
  refine ⟨xs.foldl (fun best y => if pyKey best < pyKey y then y else best) x, ?_, ?_, ?_⟩
  · rw [hxs]; exact hmem
  · rw [overallMetrics, if_neg (by simp [List.isEmpty_iff, h])]
    simp [bestPerfMap, hxs]
  · intro m' hm'
    rw [hxs] at hm'
    exact hle m' hm'

/-- C3 amended-claim witness: the amended selection rule at the concrete
two-platform input. -/
theorem c3_amended_best_is_max_pyKey_witness :
    parityValues c3Platforms ≠ [] ∧
    ∃ m ∈ perfCandidates c3Platforms,
      (overallMetrics c3Platforms).map Prod.snd = some (calculate_perf_grade m) ∧
      ∀ m' ∈ perfCandidates c3Platforms, pyKey m' ≤ pyKey m := by
  have h : parityValues c3Platforms ≠ [] := by simp [parityValues, c3Platforms]
  exact ⟨h, c3_amended_best_is_max_pyKey c3Platforms h⟩

theorem orElse_none_right (a : Option ℚ) : (a.orElse (fun _ => none)) = a := by
  cases a <;> rfl

theorem orElse_assoc (a b c : Option ℚ) :
    ((a.orElse (fun _ => b)).orElse (fun _ => c)) =
      (a.orElse (fun _ => (b.orElse (fun _ => c)))) := by
  cases a <;> rfl

/-- Shifting the initial accumulator out of a write-fold. -/
theorem foldWrite_shift {α : Type} (w : α → Option ℚ) :
    ∀ (l : List α) (init : Option ℚ),
      foldWrite w init l = ((lastWrite w l).orElse (fun _ => init)) := by
  intro l
  induction l with
  | nil => intro init; rfl
  | cons x t ih =>
    intro init
    have h1 : foldWrite w init (x :: t) = foldWrite w ((w x).orElse (fun _ => init)) t := rfl
    have h2 : lastWrite w (x :: t) = foldWrite w ((w x).orElse (fun _ => none)) t := rfl
    rw [h1, h2, ih ((w x).orElse (fun _ => init)), ih ((w x).orElse (fun _ => none))]
    cases lastWrite w t <;> cases w x <;> rfl

theorem parityStep_date (e : HistoryEntry) (pr : String × Option PlatformRecord) :
    (parityStep e pr).date = e.date := by
  rcases pr with ⟨name, d⟩
  cases d with
  | none => rfl
  | some d => cases hp : d.parity <;> simp [parityStep, hp]

theorem parityStep_perf (e : HistoryEntry) (pr : String × Option PlatformRecord) :
    (parityStep e pr).perf = e.perf := by
  rcases pr with ⟨name, d⟩
  cases d with
  | none => rfl
  | some d => cases hp : d.parity <;> simp [parityStep, hp]

theorem perfStep_date (e : HistoryEntry) (pr : String × Option PlatformRecord) :
    (perfStep e pr).date = e.date := by
  rcases pr with ⟨name, d⟩
  cases d with
  | none => rfl
  | some d =>
    cases hpf : d.perf with
    | none => simp [perfStep, hpf]
    | some pf => simp only [perfStep, hpf]; split_ifs <;> rfl

theorem perfStep_parities (e : HistoryEntry) (pr : String × Option PlatformRecord) :
    (perfStep e pr).parities = e.parities := by
  rcases pr with ⟨name, d⟩
  cases d with
  | none => rfl
  | some d =>
    cases hpf : d.perf with
    | none => simp [perfStep, hpf]
    | some pf => simp only [perfStep, hpf]; split_ifs <;> rfl

theorem date_updateEntryStep (e : HistoryEntry) (pr : String × Option PlatformRecord) :
    (updateEntryStep e pr).date = e.date := by
  rw [updateEntryStep, perfStep_date, parityStep_date]

theorem date_updateEntryWith (platforms : List (String × Option PlatformRecord)) :
    ∀ e : HistoryEntry, (updateEntryWith e platforms).date = e.date := by
  induction platforms with
  | nil => intro e; rfl
  | cons pr t ih =>
    intro e
    have h1 : updateEntryWith e (pr :: t) = updateEntryWith (updateEntryStep e pr) t := rfl
    rw [h1, ih, date_updateEntryStep]

/-- The perf-merge inner loop, characterised through `dget`. -/
theorem dget_inner_perf_fold (k : String) :
    ∀ (pf : List (String × Option ℚ)) (m : List (String × ℚ)),
      dget (pf.foldl (fun acc kv =>
        match kv.2 with
        | some v => dictSet acc kv.1 v
        | none => acc) m) k =
      foldWrite (fun kv => if kv.1 = k then kv.2 else none) (dget m k) pf := by
  intro pf
  induction pf with
  | nil => intro m; rfl
  | cons kv t ih =>
    intro m
    rw [List.foldl_cons, ih]
    have hone : dget (match kv.2 with
        | some v => dictSet m kv.1 v
        | none => m) k =
        (((if kv.1 = k then kv.2 else none)).orElse (fun _ => dget m k)) := by
      cases hv : kv.2 with
      | none => by_cases hk : kv.1 = k <;> simp [hk]
      | some v =>
        rw [dget_dictSet]
        by_cases hk : kv.1 = k
        · rw [if_pos hk, if_pos hk.symm]; rfl
        · rw [if_neg hk, if_neg (fun h => hk h.symm)]; rfl
    rw [hone, foldWrite_shift _ t]
    have hr : foldWrite (fun kv => if kv.1 = k then kv.2 else none) (dget m k) (kv :: t) =
        foldWrite (fun kv => if kv.1 = k then kv.2 else none)
          (((if kv.1 = k then kv.2 else none)).orElse (fun _ => dget m k)) t := rfl
    rw [hr, foldWrite_shift _ t]

/-- One platform step of the entry update, seen through `dget` on parities. -/
theorem dget_parities_updateEntryStep (e : HistoryEntry)
    (pr : String × Option PlatformRecord) (plat : String) :
    dget (updateEntryStep e pr).parities plat =
      ((parityWrite plat pr).orElse (fun _ => dget e.parities plat)) := by
  rw [updateEntryStep, perfStep_parities]
  rcases pr with ⟨name, d⟩
  cases d with
  | none => by_cases hk : name = plat <;> simp [parityStep, parityWrite, hk]
  | some d =>
    cases hp : d.parity with
    | none => by_cases hk : name = plat <;> simp [parityStep, parityWrite, hp, hk]
    | some p =>
      simp only [parityStep, parityWrite, hp]
      rw [dget_dictSet]
      by_cases hk : name = plat
      · subst hk
        simp [hp]
      · rw [if_neg (fun h => hk h.symm), if_neg hk]; rfl

/-- One platform step of the entry update, seen through `dget` on perf. -/
theorem dget_perf_updateEntryStep (e : HistoryEntry)
    (pr : String × Option PlatformRecord) (k : String) :
    dget (updateEntryStep e pr).perf k =
      ((perfWrite k pr).orElse (fun _ => dget e.perf k)) := by
  rw [updateEntryStep]
  rcases pr with ⟨name, d⟩
  cases d with
  | none => rw [show parityStep e (name, none) = e from rfl]; rfl
  | some d =>
    have hbase : (parityStep e (name, some d)).perf = e.perf :=
      parityStep_perf e (name, some d)
    cases hpf : d.perf with
    | none => simp [perfStep, perfWrite, hpf, hbase]
    | some pf =>
      simp only [perfStep, perfWrite, hpf]
      split_ifs with hne
      · simp only []
        rw [dget_inner_perf_fold, hbase, foldWrite_shift]
      · simp [hbase]

/-- The whole platform loop, seen through `dget` on parities. -/
theorem dget_parities_updateEntryWith
    (platforms : List (String × Option PlatformRecord)) :
    ∀ (e : HistoryEntry) (plat : String),
      dget (updateEntryWith e platforms).parities plat =
        ((lastWrite (parityWrite plat) platforms).orElse
          (fun _ => dget e.parities plat)) := by
  induction platforms with
  | nil => intro e plat; rfl
  | cons pr t ih =>
    intro e plat
    have h1 : updateEntryWith e (pr :: t) = updateEntryWith (updateEntryStep e pr) t := rfl
    rw [h1, ih, dget_parities_updateEntryStep]
    have h2 : lastWrite (parityWrite plat) (pr :: t) =
        foldWrite (parityWrite plat) ((parityWrite plat pr).orElse (fun _ => none)) t := rfl
    rw [h2, foldWrite_shift _ t]
    cases lastWrite (parityWrite plat) t <;> cases parityWrite plat pr <;> rfl

/-- The whole platform loop, seen through `dget` on perf. -/
theorem dget_perf_updateEntryWith
    (platforms : List (String × Option PlatformRecord)) :
    ∀ (e : HistoryEntry) (k : String),
      dget (updateEntryWith e platforms).perf k =
        ((lastWrite (perfWrite k) platforms).orElse
          (fun _ => dget e.perf k)) := by
  induction platforms with
  | nil => intro e k; rfl
  | cons pr t ih =>
    intro e k
    have h1 : updateEntryWith e (pr :: t) = updateEntryWith (updateEntryStep e pr) t := rfl
    rw [h1, ih, dget_perf_updateEntryStep]
    have h2 : lastWrite (perfWrite k) (pr :: t) =
        foldWrite (perfWrite k) ((perfWrite k pr).orElse (fun _ => none)) t := rfl
    rw [h2, foldWrite_shift _ t]
    cases lastWrite (perfWrite k) t <;> cases perfWrite k pr <;> rfl

theorem map_date_replaceFirstToday (today : String) (u : HistoryEntry)
    (hu : u.date = today) :
    ∀ h : List HistoryEntry,
      (replaceFirstToday h today u).map (fun e => e.date) =
        h.map (fun e => e.date) := by
  intro h
  induction h with
  | nil => rfl
  | cons x t ih =>
    by_cases hx : x.date = today
    · simp [replaceFirstToday, hx, hu]
    · simp [replaceFirstToday, hx, ih]

theorem mem_replaceFirstToday_today {today : String} {u : HistoryEntry}
    (hu : u.date = today) :
    ∀ {h : List HistoryEntry}, ((h.map (fun e => e.date)).Nodup) →
      ∀ e ∈ replaceFirstToday h today u, e.date = today → e = u := by
  intro h
  induction h with
  | nil => intro _ e he; simp [replaceFirstToday] at he
  | cons x t ih =>
    intro hnd e he hd
    rw [List.map_cons, List.nodup_cons] at hnd
    by_cases hx : x.date = today
    · rw [replaceFirstToday, if_pos hx] at he
      rcases List.mem_cons.mp he with h1 | h1
      · exact h1
      · exfalso
        apply hnd.1
        rw [hx, ← hd]
        exact List.mem_map_of_mem (fun e => e.date) h1
    · rw [replaceFirstToday, if_neg hx] at he
      rcases List.mem_cons.mp he with h1 | h1
      · exact absurd (h1 ▸ hd) hx
      · exact ih hnd.2 e h1 hd

/-- Dates of the upserted (pre-sort, pre-truncation) history. -/
theorem map_date_upsertToday (history : List HistoryEntry) (today : String)
    (platforms : List (String × Option PlatformRecord)) :
    (upsertToday history today platforms).map (fun e => e.date) =
      (if (history.find? (fun e => e.date == today)).isSome then
        history.map (fun e => e.date)
      else history.map (fun e => e.date) ++ [today]) := by
  unfold upsertToday
  cases hfind : history.find? (fun e => e.date == today) with
  | none => simp [date_updateEntryWith, freshEntry]
  | some e0 =>
    have he0 : e0.date = today := by
      have := List.find?_some hfind
      simpa using this
    simp only [Option.isSome_some, if_pos]
    exact map_date_replaceFirstToday today _ (by rw [date_updateEntryWith]; exact he0) history

theorem sortByDate_sorted (l : List HistoryEntry) :
    (sortByDate l).Pairwise (fun a b => a.date ≤ b.date) := by
  have htrans : ∀ a b c : HistoryEntry, (decide (a.date ≤ b.date)) = true →
      (decide (b.date ≤ c.date)) = true → (decide (a.date ≤ c.date)) = true := by
    intro a b c h1 h2
    simp only [decide_eq_true_eq] at *
    exact le_trans h1 h2
  have htotal : ∀ a b : HistoryEntry,
      ((decide (a.date ≤ b.date)) || (decide (b.date ≤ a.date))) = true := by
    intro a b
    simp only [Bool.or_eq_true, decide_eq_true_eq]
    exact le_total a.date b.date
  have h := @List.sorted_mergeSort HistoryEntry
    (fun a b : HistoryEntry => decide (a.date ≤ b.date)) htrans htotal l
  exact h.imp (fun hab => by simpa using hab)

theorem nodup_map_date_upsertToday (history : List HistoryEntry) (today : String)
    (platforms : List (String × Option PlatformRecord))
    (hnd : (history.map (fun e => e.date)).Nodup) :
    ((upsertToday history today platforms).map (fun e => e.date)).Nodup := by
  rw [map_date_upsertToday]
  cases hfind : history.find? (fun e => e.date == today) with
  | some e0 => simpa using hnd
  | none =>
    have hnot : today ∉ history.map (fun e => e.date) := by
      intro hmem
      rcases List.mem_map.mp hmem with ⟨e, he, hd⟩
      have := List.find?_eq_none.mp hfind e he
      simp [hd] at this
    rw [if_neg (by simp), List.nodup_append]
    refine ⟨hnd, List.nodup_singleton _, ?_⟩
    intro a ha hb
    rw [List.mem_singleton] at hb
    exact hnot (hb ▸ ha)

/-- Every today-dated entry surviving `update_history` is exactly the updated
entry built from `todayBase`. -/
theorem mem_update_history_today (history : List HistoryEntry) (today : String)
    (platforms : List (String × Option PlatformRecord))
    (hnd : (history.map (fun e => e.date)).Nodup) :
    ∀ e ∈ update_history history today platforms, e.date = today →
      e = updateEntryWith (todayBase history today) platforms := by
  intro e he hd
  have hmem1 : e ∈ sortByDate (upsertToday history today platforms) :=
    (List.drop_sublist _ _).subset he
  have hmem2 : e ∈ upsertToday history today platforms :=
    (List.mergeSort_perm _ _).mem_iff.mp hmem1
  unfold todayBase
  unfold upsertToday at hmem2
  cases hfind : history.find? (fun e => e.date == today) with
  | some e0 =>
    rw [hfind] at hmem2
    have he0 : e0.date = today := by
      have := List.find?_some hfind
      simpa using this
    have hu : (updateEntryWith e0 platforms).date = today := by
      rw [date_updateEntryWith]; exact he0
    simpa using mem_replaceFirstToday_today hu hnd e hmem2 hd
  | none =>
    rw [hfind] at hmem2
    rcases List.mem_append.mp hmem2 with h1 | h1
    · exfalso
      have := List.find?_eq_none.mp hfind e h1
      simp [hd] at this
    · simpa using List.mem_singleton.mp h1

/-- C7. History invariants of `update_history`, for a history whose dates are
pairwise distinct (the shape the updater itself maintains): the result is
sorted ascending by date; it has at most 90 entries, and upserting a fresh
date grows the length to exactly `min (|history| + 1) 90` (so after 95 daily
upserts from empty exactly 90 remain, the most recent by date); dates stay
pairwise distinct, so a day never has two entries; and every surviving entry
for today is the in-place updated entry built from the previously existing
today entry (or the fresh one), whose recorded parity for each platform is
the last value supplied by the platform loop, falling back to the previous
value — so a second run on the same day overwrites the first run's values
rather than appending a duplicate. -/
theorem c7_history_bounded_sorted_upsert (history : List HistoryEntry)
    (today : String) (platforms : List (String × Option PlatformRecord))
    (hnd : (history.map (fun e => e.date)).Nodup) :
    (update_history history today platforms).Pairwise
      (fun a b => a.date ≤ b.date) ∧
    (update_history history today platforms).length ≤ 90 ∧
    ((update_history history today platforms).map (fun e => e.date)).Nodup ∧
    (today ∉ history.map (fun e => e.date) →
      (update_history history today platforms).length =
        min (history.length + 1) 90) ∧
    (∀ e ∈ update_history history today platforms, e.date = today →
      e = updateEntryWith (todayBase history today) platforms ∧
      ∀ plat, dget e.parities plat =
        ((lastWrite (parityWrite plat) platforms).orElse
          (fun _ => dget (todayBase history today).parities plat))) := by
  have hdef : update_history history today platforms =
      lastN 90 (sortByDate (upsertToday history today platforms)) := rfl
  have hsub : (update_history history today platforms).Sublist
      (sortByDate (upsertToday history today platforms)) := by
    rw [hdef]; exact List.drop_sublist _ _
  refine ⟨?_, ?_, ?_, ?_, ?_⟩
  · exact List.Pairwise.sublist hsub (sortByDate_sorted _)
  · rw [hdef]
    unfold lastN
    rw [List.length_drop]
    omega
  · have h1 : ((sortByDate (upsertToday history today platforms)).map
        (fun e => e.date)).Nodup := by
      have hperm := (List.mergeSort_perm (upsertToday history today platforms)
        (fun a b : HistoryEntry => decide (a.date ≤ b.date))).map (fun e => e.date)
      exact hperm.nodup_iff.mpr (nodup_map_date_upsertToday history today platforms hnd)
    exact List.Nodup.sublist (List.Sublist.map (fun e => e.date) hsub) h1
  · intro hnot
    have hfind : history.find? (fun e => e.date == today) = none := by
      rw [List.find?_eq_none]
      intro x hx
      simp only [beq_iff_eq]
      intro hdx
      exact hnot (hdx ▸ List.mem_map_of_mem (fun e => e.date) hx)
    have hlen : (upsertToday history today platforms).length = history.length + 1 := by
      unfold upsertToday
      rw [hfind, List.length_append, List.length_cons, List.length_nil]
    have hslen : (sortByDate (upsertToday history today platforms)).length =
        history.length + 1 := by
      unfold sortByDate
      rw [(List.mergeSort_perm _ _).length_eq, hlen]
    rw [hdef]
    unfold lastN
    rw [List.length_drop, hslen]
    omega
  · intro e he hd
    have heq := mem_update_history_today history today platforms hnd e he hd
    refine ⟨heq, fun plat => ?_⟩
    rw [heq, dget_parities_updateEntryWith]

/-- C7 witness: the invariants at a concrete upsert of a fresh date into an
empty history. -/
theorem c7_history_bounded_sorted_upsert_witness :
    (([] : List HistoryEntry).map (fun e => e.date)).Nodup ∧
    "2026-10-12" ∉ ([] : List HistoryEntry).map (fun e => e.date) ∧
    (update_history [] "2026-10-12" c7Platforms).length ≤ 90 ∧
    ((update_history [] "2026-10-12" c7Platforms).map (fun e => e.date)).Nodup ∧
    (update_history [] "2026-10-12" c7Platforms).length =
      min (([] : List HistoryEntry).length + 1) 90 := by
  have h := c7_history_bounded_sorted_upsert [] "2026-10-12" c7Platforms (by simp)
  exact ⟨by simp, by simp, h.2.1, h.2.2.1, h.2.2.2.1 (by simp)⟩

/-! ## Claim C10 -/

/-- C10. Perf merge within one day's history entry: for every surviving
today entry and every perf key `k`, the stored value is the last non-null
value supplied for `k` by any platform in the run — the platform processed
last overwrites earlier platforms (and, within one platform's perf dict,
later duplicates overwrite earlier ones) — and, when no current platform
supplies `k`, the entry's previous value for `k` is left unchanged, never
deleted. -/
theorem c10_perf_merge_last_wins (history : List HistoryEntry) (today : String)
    (platforms : List (String × Option PlatformRecord))
    (hnd : (history.map (fun e => e.date)).Nodup) :
    ∀ e ∈ update_history history today platforms, e.date = today →
      ∀ k, dget e.perf k =
        ((lastWrite (perfWrite k) platforms).orElse
          (fun _ => dget (todayBase history today).perf k)) := by
  intro e he hd k
  rw [mem_update_history_today history today platforms hnd e he hd,
    dget_perf_updateEntryWith]

/-- C10 witness: at a concrete run over an empty history, the surviving today
entry's `engine_init_ms` is characterised by the last-platform-wins merge. -/
theorem c10_perf_merge_last_wins_witness :
    (([] : List HistoryEntry).map (fun e => e.date)).Nodup ∧
    updateEntryWith (freshEntry "2026-10-12") c10Platforms ∈
      update_history [] "2026-10-12" c10Platforms ∧
    (updateEntryWith (freshEntry "2026-10-12") c10Platforms).date = "2026-10-12" ∧
    dget (updateEntryWith (freshEntry "2026-10-12") c10Platforms).perf
        "engine_init_ms" =
      ((lastWrite (perfWrite "engine_init_ms") c10Platforms).orElse
        (fun _ => dget (todayBase [] "2026-10-12").perf "engine_init_ms")) := by
  have hmem : updateEntryWith (freshEntry "2026-10-12") c10Platforms ∈
      update_history [] "2026-10-12" c10Platforms := by
    have : update_history [] "2026-10-12" c10Platforms =
        [updateEntryWith (freshEntry "2026-10-12") c10Platforms] := by
      unfold update_history upsertToday sortByDate lastN
      simp
    rw [this]
    exact List.mem_singleton.mpr rfl
  have hdate : (updateEntryWith (freshEntry "2026-10-12") c10Platforms).date =
      "2026-10-12" := by
    rw [date_updateEntryWith]; rfl
  exact ⟨by simp, hmem, hdate,
    c10_perf_merge_last_wins [] "2026-10-12" c10Platforms (by simp) _ hmem hdate
      "engine_init_ms"⟩

end HiWave
